import Mathlib

/-!
Verification development for an in-process messaging toolkit offering three
integration patterns over a common message envelope: a filter pipeline
(pipes and filters), a command dispatch layer (handler, invoker, bus), and a
publish/subscribe broker with topic-based fan-out.

The embedding mirrors the Python source:

* Payload/metadata dictionaries are insertion-ordered association lists
  (`Dict`), with `Dict.update` matching Python's `dict.update` (overwrite in
  place, append new keys at the end).
* Python passes dictionaries by reference and pydantic's `model_copy()` is a
  shallow copy, so the pipeline model threads an explicit `Store` (a heap of
  dictionaries addressed by `Ptr`); an `AgentMessage` holds references into
  the store for its `payload` and `metadata` fields.  A shallow copy of a
  message is a record with the same references; mutating the referenced cell
  is observable through every alias.
* User-supplied callbacks (transform functions, custom filter bodies, command
  handler functions) are modelled as pure functions of their input that may
  raise, via `Except`.
* `asyncio` timeouts are modelled by pairing a handler's execution with an
  explicit duration in abstract time units; `asyncio.wait_for` succeeds iff
  the duration is within the timeout.
-/

/-- A dynamically-typed payload value (the fragment needed by the claims). -/
inductive Val where
  | vstr (s : String)
  | vnat (n : Nat)
  | vbool (b : Bool)
deriving DecidableEq, Repr

/-- A Python dictionary with string keys: an insertion-ordered association
list. -/
abbrev Dict := List (String × Val)

/-- `k in d`: key-membership test of a Python dictionary, generically over
the stored values. -/
def hasKeyB (l : List (String × α)) (k : String) : Bool :=
  l.any (fun kv => kv.1 == k)

/-- `d[k]`-as-`Option`: lookup in a Python dictionary, generically over the
stored values. -/
def lookupKey : List (String × α) → String → Option α
  | [], _ => none
  | kv :: rest, k => if kv.1 == k then some kv.2 else lookupKey rest k

/-- `d[k] = v`: assignment into a Python dictionary, generically over the
stored values — overwrite the value in place when the key exists, otherwise
append the new binding at the end (insertion order preserved). -/
def storeKey (l : List (String × α)) (k : String) (v : α) : List (String × α) :=
  if hasKeyB l k then
    l.map (fun kv => if kv.1 == k then (k, v) else kv)
  else
    l ++ [(k, v)]

/-- `k in d` for a payload dictionary. -/
def Dict.hasKey (d : Dict) (k : String) : Bool :=
  hasKeyB d k

/-- `d[k] = v` for a payload dictionary. -/
def Dict.insertKV (d : Dict) (k : String) (v : Val) : Dict :=
  storeKey d k v

/-- `d.update(e)` for Python dictionaries. -/
def Dict.update (d e : Dict) : Dict :=
  e.foldl (fun acc kv => Dict.insertKV acc kv.1 kv.2) d

/-- A reference to a dictionary object on the heap. -/
abbrev Ptr := Nat

/-- The heap of live dictionary objects; Python variables and message fields
alias cells of this store. -/
abbrev Store := List Dict

/-- Dereference a pointer. -/
def Store.read (s : Store) (p : Ptr) : Dict :=
  s.getD p []

/-- Mutate the dictionary object a pointer refers to (visible through every
alias of `p`). -/
def Store.write (s : Store) (p : Ptr) (d : Dict) : Store :=
  s.set p d

/-- Allocate a fresh dictionary object. -/
def Store.alloc (s : Store) (d : Dict) : Store × Ptr :=
  (s ++ [d], s.length)

namespace PipesAndFilters

/-- The message envelope (`shared.models.AgentMessage`) restricted to the
fields the pipeline claims are about.  `payloadRef`/`metadataRef` are
references into the `Store`, reflecting that pydantic models hold their
`payload`/`metadata` dictionaries by reference and `model_copy()` shares
them. -/
structure AgentMessage where
  id : String
  source : String
  payloadRef : Ptr
  metadataRef : Ptr
deriving DecidableEq, Repr

/-- The concrete filter agents of `patterns.pipes_and_filters`, plus a
`customFilter` constructor standing for an arbitrary user-defined
`FilterAgent` subclass whose `filter` body reads the payload and either
raises, signals a block, or produces a fresh payload. -/
inductive FilterAgent where
  | validationFilter (requiredFields : List String)
  | transformFilter (transformFunc : Option (Dict → Except String Dict))
  | enrichmentFilter (enrichmentData : Dict)
  | customFilter (passThroughFlag : Bool) (body : Dict → Except String (Option Dict))

/-- The `pass_through` flag: `ValidationFilter.__init__` passes
`pass_through=False`; `TransformFilter` and `EnrichmentFilter` keep the
default `True`. -/
def FilterAgent.passThrough : FilterAgent → Bool
  | .validationFilter _ => false
  | .transformFilter _ => true
  | .enrichmentFilter _ => true
  | .customFilter pt _ => pt

/-- Whether the filter is an `EnrichmentFilter`. -/
def FilterAgent.isEnrichment : FilterAgent → Bool
  | .enrichmentFilter _ => true
  | _ => false

/-- The `filter` method of each agent, acting on the store.  The result is
`Except.error e` when the body raises out of `filter`, `Except.ok none` when
the filter signals a block, and `Except.ok (some m)` otherwise.

* `ValidationFilter.filter` returns `None` iff some required field is missing
  from the payload, otherwise returns the message; it never touches the store.
* `TransformFilter.filter` with no function returns the message; with a
  function it applies it to the payload, allocates the new payload as a fresh
  object and returns a shallow copy of the message whose `payload` attribute
  was reassigned to it; a raise inside the transform is caught locally and
  yields `None`.
* `EnrichmentFilter.filter` takes a shallow copy of the message (same
  `payloadRef`) and calls `payload.update(enrichment_data)`, which mutates
  the shared dictionary object in the store.
-/
def FilterAgent.filter :
    FilterAgent → Store → AgentMessage → Store × Except String (Option AgentMessage)
  | .validationFilter required, s, m =>
      if required.all (fun f => Dict.hasKey (Store.read s m.payloadRef) f) then
        (s, .ok (some m))
      else
        (s, .ok none)
  | .transformFilter none, s, m => (s, .ok (some m))
  | .transformFilter (some tf), s, m =>
      match tf (Store.read s m.payloadRef) with
      | .ok newPayload =>
          let (s', p') := Store.alloc s newPayload
          (s', .ok (some { m with payloadRef := p' }))
      | .error _ => (s, .ok none)
  | .enrichmentFilter data, s, m =>
      (Store.write s m.payloadRef (Dict.update (Store.read s m.payloadRef) data),
       .ok (some m))
  | .customFilter _ body, s, m =>
      match body (Store.read s m.payloadRef) with
      | .ok (some newPayload) =>
          let (s', p') := Store.alloc s newPayload
          (s', .ok (some { m with payloadRef := p' }))
      | .ok none => (s, .ok none)
      | .error e => (s, .error e)

/-- `FilterAgent.process_message`: apply `filter`; a truthy result is
forwarded; a `None` result forwards the original message when the filter is
pass-through and blocks otherwise; a raise out of `filter` is caught and
resolved by the same pass-through policy. -/
def FilterAgent.processMessage
    (fa : FilterAgent) (s : Store) (m : AgentMessage) : Store × Option AgentMessage :=
  match FilterAgent.filter fa s m with
  | (s', .ok (some filtered)) => (s', some filtered)
  | (s', .ok none) => if fa.passThrough then (s', some m) else (s', none)
  | (s', .error _) => if fa.passThrough then (s', some m) else (s', none)

/-- The loop body of `Pipeline.process`: thread the current message through
the filters in order, stopping with `none` as soon as a filter's
`process_message` yields `None`. -/
def processFrom (fs : List FilterAgent) (s : Store) (m : AgentMessage) :
    Store × Option AgentMessage :=
  match fs with
  | [] => (s, some m)
  | f :: rest =>
      match FilterAgent.processMessage f s m with
      | (s', some m') => processFrom rest s' m'
      | (s', none) => (s', none)

/-- Instrumented variant of the loop that also counts how many filters had
`process_message` invoked on them (the spec's side-channel counter). -/
def processCount (fs : List FilterAgent) (s : Store) (m : AgentMessage) :
    Store × Option AgentMessage × Nat :=
  match fs with
  | [] => (s, some m, 0)
  | f :: rest =>
      match FilterAgent.processMessage f s m with
      | (s', some m') =>
          ((processCount rest s' m').1, (processCount rest s' m').2.1,
           (processCount rest s' m').2.2 + 1)
      | (s', none) => (s', none, 1)

/-- `Pipeline`: an ordered list of filters. -/
structure Pipeline where
  filters : List FilterAgent

/-- `Pipeline.process`. -/
def Pipeline.process (p : Pipeline) (s : Store) (m : AgentMessage) :
    Store × Option AgentMessage :=
  processFrom p.filters s m

/-- The number of filters invoked during `Pipeline.process`. -/
def Pipeline.invokedCount (p : Pipeline) (s : Store) (m : AgentMessage) : Nat :=
  (processCount p.filters s m).2.2

/-- The per-message outcomes gathered by `Pipeline.process_batch`
(`asyncio.gather` with `return_exceptions=True`; in this model a run never
raises, so outcomes are `Option`).  The store is threaded left to right,
matching the cooperative scheduling of coroutines that never suspend. -/
def Pipeline.runBatch (p : Pipeline) (s : Store) (msgs : List AgentMessage) :
    Store × List (Option AgentMessage) :=
  match msgs with
  | [] => (s, [])
  | m :: rest =>
      let (s', r) := Pipeline.process p s m
      let (s'', rs) := Pipeline.runBatch p s' rest
      (s'', r :: rs)

/-- `Pipeline.process_batch`: gather all runs, then keep only the non-`None`,
non-exception results. -/
def Pipeline.processBatch (p : Pipeline) (s : Store) (msgs : List AgentMessage) :
    Store × List AgentMessage :=
  let (s', results) := Pipeline.runBatch p s msgs
  (s', results.filterMap id)

end PipesAndFilters

namespace CommandMessages

/-- A registered command function: given the command's parameters it runs for
some number of abstract time units and either returns a result value or
raises. -/
abbrev HandlerFun := Dict → Nat × Except String Val

/-- `shared.models.CommandMessage` restricted to the fields the command
claims are about. -/
structure CommandMessage where
  id : String
  source : String
  commandName : String
  parameters : Dict
deriving Repr

/-- An incoming message as seen by `CommandHandler.process_message`: either a
`CommandMessage` or a plain `AgentMessage` that is not one (only its `id` and
`source` are consulted on the error path). -/
inductive InMessage where
  | plain (id : String) (source : String)
  | command (c : CommandMessage)

/-- `shared.models.ResponseMessage` restricted to the fields the claims are
about.  The freshly generated `uuid4` id of a response is abstracted to the
fixed token `"uuid4"`. -/
structure ResponseMessage where
  id : String
  source : String
  destination : String
  correlationId : Option String
  status : String
  result : Option Val
  error : Option String
deriving Repr

/-- `patterns.command_messages.CommandHandler`: an agent name plus the
command registry (a name-to-function mapping). -/
structure CommandHandler where
  name : String
  commandHandlers : List (String × HandlerFun)

/-- `CommandHandler.register_command`: `self._command_handlers[name] = f`. -/
def CommandHandler.registerCommand
    (h : CommandHandler) (commandName : String) (f : HandlerFun) : CommandHandler :=
  { h with commandHandlers := storeKey h.commandHandlers commandName f }

/-- `CommandHandler._create_success_response`. -/
def CommandHandler.createSuccessResponse
    (h : CommandHandler) (c : CommandMessage) (result : Val) : ResponseMessage :=
  { id := "uuid4"
    source := h.name
    destination := c.source
    correlationId := some c.id
    status := "success"
    result := some result
    error := none }

/-- `CommandHandler._create_error_response` (also used for non-command
messages, hence the explicit id/source of the offending message). -/
def CommandHandler.createErrorResponse
    (h : CommandHandler) (msgId msgSource errorMessage : String) : ResponseMessage :=
  { id := "uuid4"
    source := h.name
    destination := msgSource
    correlationId := some msgId
    status := "error"
    result := none
    error := some errorMessage }

/-- `CommandHandler.execute_command` with its duration in abstract time
units: an unknown command name yields an immediate error response; a known
one invokes the bound function, turning a normal return into a success
response and a raise into an error response. -/
def CommandHandler.executeCommandTimed
    (h : CommandHandler) (c : CommandMessage) : Nat × ResponseMessage :=
  match lookupKey h.commandHandlers c.commandName with
  | none =>
      (0, h.createErrorResponse c.id c.source ("Unknown command: " ++ c.commandName))
  | some f =>
      match f c.parameters with
      | (d, .ok result) => (d, h.createSuccessResponse c result)
      | (d, .error e) => (d, h.createErrorResponse c.id c.source e)

/-- `CommandHandler.execute_command` (its returned value). -/
def CommandHandler.executeCommand (h : CommandHandler) (c : CommandMessage) :
    ResponseMessage :=
  (h.executeCommandTimed c).2

/-- `CommandHandler.process_message`: a message that is not a
`CommandMessage` is answered with an error response without consulting the
registry; a `CommandMessage` is executed. -/
def CommandHandler.processMessage (h : CommandHandler) : InMessage → ResponseMessage
  | .plain msgId msgSource =>
      h.createErrorResponse msgId msgSource "Message is not a CommandMessage"
  | .command c => h.executeCommand c

/-- `asyncio.wait_for` on a timed computation: the value when it completes
within the timeout, otherwise a raised `asyncio.TimeoutError`. -/
def waitFor (timeout : Nat) (comp : Nat × ResponseMessage) :
    Except String ResponseMessage :=
  if comp.1 ≤ timeout then .ok comp.2 else .error "asyncio.TimeoutError"

/-- `CommandInvoker.invoke_command`: build the command (the generated `uuid4`
is abstracted as the explicit argument `genId`), run `execute_command` under
`asyncio.wait_for`, return its response, and re-raise a timeout to the
caller. -/
def CommandInvoker.invokeCommand
    (invokerName : String) (h : CommandHandler) (commandName : String)
    (parameters : Dict) (timeout : Nat) (genId : String) :
    Except String ResponseMessage :=
  let command : CommandMessage :=
    { id := genId
      source := invokerName
      commandName := commandName
      parameters := parameters }
  match waitFor timeout (h.executeCommandTimed command) with
  | .ok response => .ok response
  | .error e => .error e

/-- `patterns.command_messages.CommandBus`: the command-name-to-handler
registry. -/
structure CommandBus where
  handlers : List (String × CommandHandler)

/-- `CommandBus.register_handler`: `self._handlers[name] = handler`
(overwrites the prior binding for that name). -/
def CommandBus.registerHandler
    (bus : CommandBus) (commandName : String) (h : CommandHandler) : CommandBus :=
  { handlers := storeKey bus.handlers commandName h }

/-- `CommandBus.dispatch`: raises (`ValueError`) when no handler is bound to
the command name; otherwise builds a `CommandMessage` (generated `uuid4`
abstracted as `genId`) and returns the handler's `execute_command` result. -/
def CommandBus.dispatch
    (bus : CommandBus) (commandName : String) (parameters : Dict)
    (source genId : String) : Except String ResponseMessage :=
  match lookupKey bus.handlers commandName with
  | none => .error ("Nenhum handler registrado para comando " ++ commandName)
  | some h =>
      let command : CommandMessage :=
        { id := genId
          source := source
          commandName := commandName
          parameters := parameters }
      .ok (h.executeCommand command)

end CommandMessages

namespace PubSub

/-- `services.pubsub.main.TopicType`. -/
inductive TopicType where
  | customerEvents
  | orderEvents
  | systemEvents
  | analyticsEvents
deriving DecidableEq, Repr

/-- `services.pubsub.main.Message`. -/
structure Message where
  topic : TopicType
  payload : Dict
  messageId : String
  timestamp : String
deriving DecidableEq, Repr

/-- The outcome of one interaction with the external AI agent during
`handle_message` (an external collaborator, abstracted): the run completed
with an assistant response; or the run ended without a usable response (a
non-completed status, or no assistant message), carrying the run status; or
the interaction raised. -/
inductive AgentOutcome where
  | completed (response : String)
  | runFailed (status : String)
  | raised (err : String)

/-- The dictionary `handle_message` returns, restricted to the fields the
claims are about. -/
inductive HandleResult where
  | skipped (reason : String)
  | success (subscriber : String) (topic : TopicType) (messageId : String)
      (response : String) (processedCount : Nat)
  | error (subscriber : String) (err : String)

/-- `services.pubsub.main.AgentSubscriber`: the per-message behaviour of its
AI agent is abstracted as the function `agentRun`. -/
structure AgentSubscriber where
  name : String
  subscribedTopics : List TopicType
  agentRun : Message → AgentOutcome
  processedCount : Nat

/-- `AgentSubscriber.is_subscribed_to`. -/
def AgentSubscriber.isSubscribedTo (s : AgentSubscriber) (t : TopicType) : Bool :=
  s.subscribedTopics.contains t

/-- `AgentSubscriber.handle_message`, instrumented with a flag recording
whether the bound AI-agent handler was invoked: an unsubscribed topic is
answered with a skipped result without invoking the handler; otherwise the
handler runs and its completion increments `processed_count` and yields a
success result, while a failed run or a raise yields an error result
(captured, not re-raised). -/
def AgentSubscriber.handleMessage (s : AgentSubscriber) (m : Message) :
    AgentSubscriber × HandleResult × Bool :=
  if s.isSubscribedTo m.topic = false then
    (s, .skipped "not_subscribed", false)
  else
    match s.agentRun m with
    | .completed response =>
        let s' := { s with processedCount := s.processedCount + 1 }
        (s', .success s.name m.topic m.messageId response s'.processedCount, true)
    | .runFailed st => (s, .error s.name ("Run status: " ++ st), true)
    | .raised e => (s, .error s.name e, true)

/-- `services.pubsub.main.PubSubBroker` (its subscriber registry; the Event
Hub transport is an external collaborator and is not part of the consume
step modelled here). -/
structure PubSubBroker where
  subscribers : List AgentSubscriber

/-- `PubSubBroker.register_subscriber`. -/
def PubSubBroker.registerSubscriber
    (b : PubSubBroker) (s : AgentSubscriber) : PubSubBroker :=
  { subscribers := b.subscribers ++ [s] }

/-- `PubSubBroker._process_event` after a successful parse of the inbound
event: select the interested subscribers and have each of them handle the
message (the concurrent `gather` is modelled as the list of independent
per-subscriber outcomes). -/
def PubSubBroker.processEvent (b : PubSubBroker) (m : Message) :
    List (AgentSubscriber × HandleResult × Bool) :=
  (b.subscribers.filter (fun s => s.isSubscribedTo m.topic)).map
    (fun s => s.handleMessage m)

end PubSub

namespace PipesAndFilters

/-- A filter other than `EnrichmentFilter` leaves the store unchanged or
extends it with one freshly allocated dictionary; it never writes to an
existing cell. -/
theorem processMessage_store_notEnrichment (f : FilterAgent) (s : Store) (m : AgentMessage)
    (hf : f.isEnrichment = false) :
    (f.processMessage s m).1 = s ∨ ∃ d, (f.processMessage s m).1 = s ++ [d] := by
  cases f with
  | validationFilter required =>
      by_cases hc :
          (required.all fun fld => Dict.hasKey (Store.read s m.payloadRef) fld) = true
      · simp [FilterAgent.processMessage, FilterAgent.filter, hc]
      · have hc' :
            (required.all fun fld => Dict.hasKey (Store.read s m.payloadRef) fld) = false := by
          simpa using hc
        simp [FilterAgent.processMessage, FilterAgent.filter, FilterAgent.passThrough, hc']
  | transformFilter tf =>
      cases tf with
      | none => simp [FilterAgent.processMessage, FilterAgent.filter]
      | some tfn =>
          cases htf : tfn (Store.read s m.payloadRef) with
          | ok newP =>
              simp only [FilterAgent.processMessage, FilterAgent.filter, htf, Store.alloc]
              exact Or.inr ⟨newP, rfl⟩
          | error e =>
              simp [FilterAgent.processMessage, FilterAgent.filter, htf,
                FilterAgent.passThrough]
  | enrichmentFilter data => simp [FilterAgent.isEnrichment] at hf
  | customFilter pt body =>
      cases hb : body (Store.read s m.payloadRef) with
      | error e =>
          cases pt <;>
            simp [FilterAgent.processMessage, FilterAgent.filter, hb, FilterAgent.passThrough]
      | ok r =>
          cases r with
          | none =>
              cases pt <;>
                simp [FilterAgent.processMessage, FilterAgent.filter, hb,
                  FilterAgent.passThrough]
          | some newP =>
              simp only [FilterAgent.processMessage, FilterAgent.filter, hb, Store.alloc]
              exact Or.inr ⟨newP, rfl⟩

/-- Reading below the old length is unaffected by allocating a new cell. -/
theorem store_read_append (s : Store) (d : Dict) (q : Ptr) (hq : q < s.length) :
    Store.read (s ++ [d]) q = Store.read s q := by
  simp [Store.read]
  rw [List.getElem?_append_left hq]

/-- Running a pipeline built only from non-`EnrichmentFilter` stages never
changes any dictionary object that existed before the run (in particular the
caller's payload and metadata). -/
theorem processFrom_read_notEnrichment :
    ∀ (fs : List FilterAgent) (s : Store) (m : AgentMessage),
      (∀ f ∈ fs, f.isEnrichment = false) → ∀ q : Ptr, q < s.length →
      Store.read (processFrom fs s m).1 q = Store.read s q
  | [], _, _, _, _, _ => rfl
  | f :: rest, s, m, hne, q, hq => by
      have hf : f.isEnrichment = false := hne f (List.mem_cons_self f rest)
      have hrest : ∀ g ∈ rest, g.isEnrichment = false :=
        fun g hg => hne g (List.mem_cons_of_mem f hg)
      have hdisj := processMessage_store_notEnrichment f s m hf
      rcases hstep : FilterAgent.processMessage f s m with ⟨s1, r⟩
      rw [hstep] at hdisj
      have hdisj' : s1 = s ∨ ∃ d, s1 = s ++ [d] := hdisj
      have hq1 : q < s1.length := by
        rcases hdisj' with h | ⟨d, h⟩
        · rw [h]; exact hq
        · rw [h, List.length_append]
          exact Nat.lt_succ_of_lt hq
      have hread1 : Store.read s1 q = Store.read s q := by
        rcases hdisj' with h | ⟨d, h⟩
        · rw [h]
        · rw [h]; exact store_read_append s d q hq
      cases r with
      | none => simp only [processFrom, hstep]; exact hread1
      | some m1 =>
          simp only [processFrom, hstep]
          rw [processFrom_read_notEnrichment rest s1 m1 hrest q hq1, hread1]

/-- C1: the claim fails on the code.  `Pipeline.process` hands each filter
the current envelope itself (no copy), and `EnrichmentFilter.filter` only
shallow-copies the message before calling `payload.update`, so the update
mutates the dictionary shared with the caller's original envelope: running a
one-`EnrichmentFilter` pipeline on an envelope with empty payload changes
the payload observed through the caller's retained reference. -/
theorem c1_counterexample :
    Store.read
        ((Pipeline.mk [FilterAgent.enrichmentFilter [("version", Val.vstr "1.0")]]).process
          [[], []] (AgentMessage.mk "m1" "test" 0 1)).1
        (AgentMessage.mk "m1" "test" 0 1).payloadRef
      ≠ Store.read [[], []] (AgentMessage.mk "m1" "test" 0 1).payloadRef := by
  decide

/-- C1 (amended): filters receive the current envelope itself, not a copy;
for every pipeline containing no `EnrichmentFilter`, no filter invocation
mutates the caller's original envelope — every dictionary object existing
before the run (payload and metadata of the caller's envelope included) is
unchanged after `Pipeline.process` returns.  An `EnrichmentFilter` updates
the payload dictionary it shares with the caller's envelope in place, and
that mutation is observable on the original. -/
theorem c1_amended (p : Pipeline) (s : Store) (m : AgentMessage)
    (hne : ∀ f ∈ p.filters, f.isEnrichment = false)
    (q : Ptr) (hq : q < s.length) :
    Store.read (p.process s m).1 q = Store.read s q :=
  processFrom_read_notEnrichment p.filters s m hne q hq

/-- Witness for the amended C1 at a one-validation-filter pipeline. -/
theorem c1_amended_witness :
    (∀ f ∈ [FilterAgent.validationFilter ["name"]], FilterAgent.isEnrichment f = false) ∧
    Store.read
        ((Pipeline.mk [FilterAgent.validationFilter ["name"]]).process
          [[("name", Val.vstr "x")]] (AgentMessage.mk "m" "t" 0 0)).1 0
      = Store.read [[("name", Val.vstr "x")]] 0 :=
  ⟨by decide,
   c1_amended (Pipeline.mk [FilterAgent.validationFilter ["name"]])
     [[("name", Val.vstr "x")]] (AgentMessage.mk "m" "t" 0 0) (by decide) 0 (by decide)⟩

/-- C5: a (non-pass-through) `ValidationFilter` with required fields `S`
blocks an envelope iff some field of `S` is missing from its payload, and
when every field is present it forwards the envelope itself with the store
untouched. -/
theorem c5_validation (requiredFields : List String) (s : Store) (m : AgentMessage) :
    (((FilterAgent.validationFilter requiredFields).processMessage s m).2 = none ↔
      ∃ f ∈ requiredFields, Dict.hasKey (Store.read s m.payloadRef) f = false) ∧
    ((∀ f ∈ requiredFields, Dict.hasKey (Store.read s m.payloadRef) f = true) →
      (FilterAgent.validationFilter requiredFields).processMessage s m = (s, some m)) := by
  by_cases hall :
      (requiredFields.all fun fld => Dict.hasKey (Store.read s m.payloadRef) fld) = true
  · have hforall := List.all_eq_true.mp hall
    constructor
    · simp only [FilterAgent.processMessage, FilterAgent.filter, hall, if_true]
      constructor
      · intro h; cases h
      · rintro ⟨f, hf, hfalse⟩
        exact absurd (hforall f hf) (by simp [hfalse])
    · intro _
      simp only [FilterAgent.processMessage, FilterAgent.filter, hall, if_true]
  · have hall' :
        (requiredFields.all fun fld => Dict.hasKey (Store.read s m.payloadRef) fld) = false := by
      simpa using hall
    have hex : ∃ f ∈ requiredFields, Dict.hasKey (Store.read s m.payloadRef) f = false := by
      rcases List.all_eq_false.mp hall' with ⟨f, hf, hfalse⟩
      exact ⟨f, hf, by simpa using hfalse⟩
    constructor
    · simp only [FilterAgent.processMessage, FilterAgent.filter, hall',
        FilterAgent.passThrough]
      simpa using hex
    · intro hforall
      exact absurd (List.all_eq_true.mpr hforall) (by simp [hall'])

/-- Witness for C5 at a filter requiring `name` and an envelope carrying
it. -/
theorem c5_validation_witness :
    (∀ f ∈ ["name"],
      Dict.hasKey (Store.read [[("name", Val.vstr "x")]]
        (AgentMessage.mk "m" "t" 0 0).payloadRef) f = true) ∧
    (FilterAgent.validationFilter ["name"]).processMessage
        [[("name", Val.vstr "x")]] (AgentMessage.mk "m" "t" 0 0)
      = ([[("name", Val.vstr "x")]], some (AgentMessage.mk "m" "t" 0 0)) :=
  ⟨by decide,
   (c5_validation ["name"] [[("name", Val.vstr "x")]] (AgentMessage.mk "m" "t" 0 0)).2
     (by decide)⟩

end PipesAndFilters

namespace PipesAndFilters

/-- C3: if, during `Pipeline.process`, the filters before stage `fi` all
pass (threading store and message to `(s', m')`) and `fi` — a
non-pass-through filter — blocks there, the pipeline result is absent and
exactly the filters up to and including `fi` were invoked: the filters after
`fi` never run. -/
theorem c3_short_circuit :
    ∀ (pre post : List FilterAgent) (fi : FilterAgent) (s s' s'' : Store)
      (m m' : AgentMessage),
      processFrom pre s m = (s', some m') →
      fi.passThrough = false →
      FilterAgent.processMessage fi s' m' = (s'', none) →
      (Pipeline.mk (pre ++ fi :: post)).process s m = (s'', none) ∧
      (Pipeline.mk (pre ++ fi :: post)).invokedCount s m = pre.length + 1
  | [], post, fi, s, s', s'', m, m', hpre, _, hblock => by
      have h1 : s = s' := congrArg Prod.fst hpre
      have h2 : (some m : Option AgentMessage) = some m' := congrArg Prod.snd hpre
      obtain rfl := h1
      obtain rfl := Option.some.inj h2
      constructor
      · simp only [Pipeline.process, List.nil_append, processFrom, hblock]
      · simp [Pipeline.invokedCount, processCount, hblock]
  | f :: rest, post, fi, s, s', s'', m, m', hpre, hnp, hblock => by
      simp only [processFrom] at hpre
      rcases hstep : FilterAgent.processMessage f s m with ⟨s1, r⟩
      rw [hstep] at hpre
      cases r with
      | none => simp at hpre
      | some m1 =>
          have ih :=
            c3_short_circuit rest post fi s1 s' s'' m1 m' hpre hnp hblock
          constructor
          · simp only [Pipeline.process, List.cons_append, processFrom, hstep]
            exact ih.1
          · have ihc : (processCount (rest ++ fi :: post) s1 m1).2.2 = rest.length + 1 :=
              ih.2
            simp only [Pipeline.invokedCount, List.cons_append, processCount, hstep,
              List.length_cons, List.append_eq]
            rw [ihc]
  termination_by pre => pre.length

/-- Witness for C3: a passing validation filter, then a blocking one, then a
never-reached transform stage. -/
theorem c3_short_circuit_witness :
    (Pipeline.mk ([FilterAgent.validationFilter ["name"]] ++
        FilterAgent.validationFilter ["email"] :: [FilterAgent.transformFilter none])).process
        [[("name", Val.vstr "x")]] (AgentMessage.mk "m" "t" 0 0)
      = ([[("name", Val.vstr "x")]], none) ∧
    (Pipeline.mk ([FilterAgent.validationFilter ["name"]] ++
        FilterAgent.validationFilter ["email"] :: [FilterAgent.transformFilter none])).invokedCount
        [[("name", Val.vstr "x")]] (AgentMessage.mk "m" "t" 0 0)
      = [FilterAgent.validationFilter ["name"]].length + 1 :=
  c3_short_circuit [FilterAgent.validationFilter ["name"]]
    [FilterAgent.transformFilter none] (FilterAgent.validationFilter ["email"])
    [[("name", Val.vstr "x")]] [[("name", Val.vstr "x")]] [[("name", Val.vstr "x")]]
    (AgentMessage.mk "m" "t" 0 0) (AgentMessage.mk "m" "t" 0 0)
    (by decide) (by decide) (by decide)

/-- C4: a pass-through filter whose body raises leaves the store — and hence
the payload and metadata of every live envelope — exactly as it was,
`process_message` returns the original pre-filter envelope, and the pipeline
continues with it.  This holds for an arbitrary pass-through custom filter
whose body raises, and for a `TransformFilter` whose transform function
raises (there the raise is caught inside `filter` and the pass-through
branch of `process_message` forwards the original). -/
theorem c4_pass_through_error (s : Store) (m : AgentMessage) (rest : List FilterAgent)
    (b : Dict → Except String (Option Dict)) (tf : Dict → Except String Dict)
    (e e' : String) :
    (b (Store.read s m.payloadRef) = .error e →
      (FilterAgent.customFilter true b).processMessage s m = (s, some m) ∧
      processFrom (FilterAgent.customFilter true b :: rest) s m = processFrom rest s m) ∧
    (tf (Store.read s m.payloadRef) = .error e' →
      (FilterAgent.transformFilter (some tf)).processMessage s m = (s, some m) ∧
      processFrom (FilterAgent.transformFilter (some tf) :: rest) s m
        = processFrom rest s m) := by
  constructor
  · intro hb
    have hpm : (FilterAgent.customFilter true b).processMessage s m = (s, some m) := by
      simp [FilterAgent.processMessage, FilterAgent.filter, hb, FilterAgent.passThrough]
    exact ⟨hpm, by simp only [processFrom, hpm]⟩
  · intro htf
    have hpm : (FilterAgent.transformFilter (some tf)).processMessage s m = (s, some m) := by
      simp [FilterAgent.processMessage, FilterAgent.filter, htf, FilterAgent.passThrough]
    exact ⟨hpm, by simp only [processFrom, hpm]⟩

/-- Witness for C4 at a raising custom filter body and a raising transform
function over a singleton store. -/
theorem c4_pass_through_error_witness :
    (FilterAgent.customFilter true (fun _ => Except.error "boom")).processMessage
        [[("k", Val.vnat 1)]] (AgentMessage.mk "m" "t" 0 0)
      = ([[("k", Val.vnat 1)]], some (AgentMessage.mk "m" "t" 0 0)) ∧
    (FilterAgent.transformFilter (some (fun _ => Except.error "boom"))).processMessage
        [[("k", Val.vnat 1)]] (AgentMessage.mk "m" "t" 0 0)
      = ([[("k", Val.vnat 1)]], some (AgentMessage.mk "m" "t" 0 0)) :=
  ⟨((c4_pass_through_error [[("k", Val.vnat 1)]] (AgentMessage.mk "m" "t" 0 0) []
      (fun _ => Except.error "boom") (fun _ => Except.error "boom") "boom" "boom").1 rfl).1,
   ((c4_pass_through_error [[("k", Val.vnat 1)]] (AgentMessage.mk "m" "t" 0 0) []
      (fun _ => Except.error "boom") (fun _ => Except.error "boom") "boom" "boom").2 rfl).1⟩

/-- Length of keeping the non-`none` entries of a list of options. -/
theorem length_filterMap_id (l : List (Option α)) :
    (l.filterMap id).length = l.length - l.countP (fun o => o.isNone) := by
  induction l with
  | nil => rfl
  | cons o t ih =>
      have hle : t.countP (fun o => o.isNone) ≤ t.length := List.countP_le_length _
      cases o with
      | none => simp [List.filterMap_cons, List.countP_cons, ih]
      | some a =>
          simp [List.filterMap_cons, List.countP_cons, ih]
          omega


/-- `runBatch` produces one outcome per input message. -/
theorem runBatch_length (p : Pipeline) (s : Store) (msgs : List AgentMessage) :
    (p.runBatch s msgs).2.length = msgs.length := by
  induction msgs generalizing s with
  | nil => rfl
  | cons m rest ih =>
      simp only [Pipeline.runBatch]
      rcases h1 : Pipeline.process p s m with ⟨s1, r⟩
      rcases h2 : Pipeline.runBatch p s1 rest with ⟨s2, rs⟩
      have := ih s1
      rw [h2] at this
      simp [this]

/-- `processBatch` keeps exactly the non-`none` outcomes of `runBatch`. -/
theorem processBatch_eq_filterMap (p : Pipeline) (s : Store) (msgs : List AgentMessage) :
    (p.processBatch s msgs).2 = (p.runBatch s msgs).2.filterMap id := by
  simp only [Pipeline.processBatch]

/-- C6: over `N` input envelopes of which exactly `M` have a per-envelope
run outcome of absent, `process_batch` returns exactly `N - M` envelopes,
and an envelope's result is in the returned list iff its own run produced
it — a failing envelope removes only itself, never the results of the
others. -/
theorem c6_batch_isolation (p : Pipeline) (s : Store) (msgs : List AgentMessage) :
    (p.processBatch s msgs).2.length
      = msgs.length - (p.runBatch s msgs).2.countP (fun o => o.isNone) ∧
    ∀ r : AgentMessage, r ∈ (p.processBatch s msgs).2 ↔ some r ∈ (p.runBatch s msgs).2 := by
  constructor
  · rw [processBatch_eq_filterMap, length_filterMap_id, runBatch_length]
  · intro r
    rw [processBatch_eq_filterMap]
    simp [List.mem_filterMap]

/-- Witness for C6: two envelopes, one passing and one failing validation,
yield exactly one result. -/
theorem c6_batch_isolation_witness :
    ((Pipeline.mk [FilterAgent.validationFilter ["name"]]).processBatch
        [[("name", Val.vstr "x")], []]
        [AgentMessage.mk "a" "t" 0 0, AgentMessage.mk "b" "t" 1 1]).2.length
      = [AgentMessage.mk "a" "t" 0 0, AgentMessage.mk "b" "t" 1 1].length -
        ((Pipeline.mk [FilterAgent.validationFilter ["name"]]).runBatch
          [[("name", Val.vstr "x")], []]
          [AgentMessage.mk "a" "t" 0 0, AgentMessage.mk "b" "t" 1 1]).2.countP
          (fun o => o.isNone) :=
  (c6_batch_isolation (Pipeline.mk [FilterAgent.validationFilter ["name"]])
    [[("name", Val.vstr "x")], []]
    [AgentMessage.mk "a" "t" 0 0, AgentMessage.mk "b" "t" 1 1]).1

end PipesAndFilters

/-- Looking up `k` after overwriting `k` in place finds the new value. -/
theorem lookupKey_map_store (l : List (String × α)) (k : String) (v : α)
    (hl : hasKeyB l k = true) :
    lookupKey (l.map (fun kv => if kv.1 == k then (k, v) else kv)) k = some v := by
  induction l with
  | nil => simp [hasKeyB] at hl
  | cons kv rest ih =>
      by_cases hk : (kv.1 == k) = true
      · simp [lookupKey, hk]
      · have hrest : hasKeyB rest k = true := by
          simp only [hasKeyB, List.any_cons, Bool.or_eq_true] at hl
          rcases hl with h | h
          · exact absurd h hk
          · simpa [hasKeyB] using h
        have hfkv : (if (kv.1 == k) = true then (k, v) else kv) = kv := if_neg hk
        simp only [List.map_cons, hfkv, lookupKey]
        rw [if_neg hk]
        exact ih hrest

/-- Looking up `k` after appending a fresh `(k, v)` binding finds it. -/
theorem lookupKey_append_store (l : List (String × α)) (k : String) (v : α)
    (hl : hasKeyB l k = false) :
    lookupKey (l ++ [(k, v)]) k = some v := by
  induction l with
  | nil => simp [lookupKey]
  | cons kv rest ih =>
      simp only [hasKeyB, List.any_cons, Bool.or_eq_false_iff] at hl
      simpa [lookupKey, hl.1] using ih (by simpa [hasKeyB] using hl.2)

/-- Python dictionary assignment followed by lookup of the same key yields
the assigned value, whether or not the key was present before. -/
theorem lookupKey_storeKey (l : List (String × α)) (k : String) (v : α) :
    lookupKey (storeKey l k v) k = some v := by
  unfold storeKey
  by_cases h : hasKeyB l k = true
  · simpa [h] using lookupKey_map_store l k v h
  · have h' : hasKeyB l k = false := by simpa using h
    simpa [h'] using lookupKey_append_store l k v h'

namespace CommandMessages

/-- C2: the error-handling asymmetry of the command layer.  Dispatching an
unbound command name on the bus raises (a `ValueError`, not an error
envelope); executing a `CommandMessage` whose name is unknown to the handler
returns — does not raise — an error `ResponseMessage` whose message contains
`Unknown command` and whose correlation id is the command's id; and a raise
inside a registered handler function is likewise converted into a returned
error `ResponseMessage` carrying the raised message, so `execute_command`
never propagates an exception. -/
theorem c2_command_error_paths (bus : CommandBus) (cname : String) (params : Dict)
    (src gid : String) (h : CommandHandler) (cmd : CommandMessage)
    (f : HandlerFun) (e : String) (d : Nat) :
    (lookupKey bus.handlers cname = none →
      bus.dispatch cname params src gid
        = .error ("Nenhum handler registrado para comando " ++ cname)) ∧
    (lookupKey h.commandHandlers cmd.commandName = none →
      h.executeCommand cmd
        = h.createErrorResponse cmd.id cmd.source ("Unknown command: " ++ cmd.commandName) ∧
      (h.executeCommand cmd).status = "error" ∧
      (h.executeCommand cmd).error = some ("Unknown command: " ++ cmd.commandName) ∧
      (h.executeCommand cmd).correlationId = some cmd.id) ∧
    (lookupKey h.commandHandlers cmd.commandName = some f →
      f cmd.parameters = (d, .error e) →
      (h.executeCommand cmd).status = "error" ∧
      (h.executeCommand cmd).error = some e ∧
      (h.executeCommand cmd).correlationId = some cmd.id) := by
  refine ⟨fun hnone => ?_, fun hnone => ?_, fun hsome hraise => ?_⟩
  · simp [CommandBus.dispatch, hnone]
  · simp [CommandHandler.executeCommand, CommandHandler.executeCommandTimed, hnone,
      CommandHandler.createErrorResponse]
  · simp [CommandHandler.executeCommand, CommandHandler.executeCommandTimed, hsome,
      hraise, CommandHandler.createErrorResponse]

/-- Witness for C2: an empty bus, a handler asked for an unknown command,
and a handler whose registered function raises. -/
theorem c2_command_error_paths_witness :
    (CommandBus.mk []).dispatch "missing" [] "s" "g"
      = .error ("Nenhum handler registrado para comando " ++ "missing") ∧
    ((CommandHandler.mk "H" [("boom", fun _ => (0, Except.error "fail"))]).executeCommand
      (CommandMessage.mk "id1" "src" "nope" [])).status = "error" ∧
    ((CommandHandler.mk "H" [("boom", fun _ => (0, Except.error "fail"))]).executeCommand
      (CommandMessage.mk "id1" "src" "boom" [])).error = some "fail" :=
  ⟨(c2_command_error_paths (CommandBus.mk []) "missing" [] "s" "g"
      (CommandHandler.mk "H" []) (CommandMessage.mk "i" "s" "c" [])
      (fun _ => (0, Except.error "fail")) "fail" 0).1 rfl,
   (((c2_command_error_paths (CommandBus.mk []) "missing" [] "s" "g"
      (CommandHandler.mk "H" [("boom", fun _ => (0, Except.error "fail"))])
      (CommandMessage.mk "id1" "src" "nope" [])
      (fun _ => (0, Except.error "fail")) "fail" 0).2.1 rfl).2.1),
   (((c2_command_error_paths (CommandBus.mk []) "missing" [] "s" "g"
      (CommandHandler.mk "H" [("boom", fun _ => (0, Except.error "fail"))])
      (CommandMessage.mk "id1" "src" "boom" [])
      (fun _ => (0, Except.error "fail")) "fail" 0).2.2 rfl rfl).2.1)⟩

/-- C8: when the handler's execution of the built command takes longer than
the timeout, `invoke_command` re-raises the timeout to its caller instead of
returning a `ResponseMessage` — the timeout is never swallowed into an error
envelope. -/
theorem c8_invoke_timeout (invokerName : String) (h : CommandHandler)
    (commandName : String) (params : Dict) (timeout : Nat) (genId : String)
    (hslow : timeout <
      (h.executeCommandTimed (CommandMessage.mk genId invokerName commandName params)).1) :
    CommandInvoker.invokeCommand invokerName h commandName params timeout genId
      = .error "asyncio.TimeoutError" := by
  have hnot :
      ¬ (h.executeCommandTimed
          (CommandMessage.mk genId invokerName commandName params)).1 ≤ timeout := by
    omega
  simp [CommandInvoker.invokeCommand, waitFor, hnot]

/-- Witness for C8: a handler completing after 5 time units against a
timeout of 1. -/
theorem c8_invoke_timeout_witness :
    CommandInvoker.invokeCommand "I"
        (CommandHandler.mk "H" [("slow", fun _ => (5, Except.ok (Val.vnat 1)))])
        "slow" [] 1 "g"
      = .error "asyncio.TimeoutError" :=
  c8_invoke_timeout "I"
    (CommandHandler.mk "H" [("slow", fun _ => (5, Except.ok (Val.vnat 1)))])
    "slow" [] 1 "g" (by decide)

/-- C9: registering two handlers under the same command name in sequence
leaves the bus dispatching that name exactly as if only the second had been
registered — the last registration wins. -/
theorem c9_last_registration_wins (bus : CommandBus) (commandName : String)
    (h1 h2 : CommandHandler) (params : Dict) (src gid : String) :
    ((bus.registerHandler commandName h1).registerHandler commandName h2).dispatch
        commandName params src gid
      = (bus.registerHandler commandName h2).dispatch commandName params src gid := by
  simp only [CommandBus.dispatch, CommandBus.registerHandler]
  rw [lookupKey_storeKey, lookupKey_storeKey]

/-- C10: a message that is not a `CommandMessage` is answered by
`process_message` with a returned error response carrying the fixed message
and the offending message's id as correlation id, and the handler registry
is never consulted: the response is the same as that of a handler with no
registered command functions. -/
theorem c10_non_command_message (n : String) (hs : List (String × HandlerFun))
    (msgId msgSource : String) :
    ((CommandHandler.mk n hs).processMessage (.plain msgId msgSource)).status = "error" ∧
    ((CommandHandler.mk n hs).processMessage (.plain msgId msgSource)).error
      = some "Message is not a CommandMessage" ∧
    ((CommandHandler.mk n hs).processMessage (.plain msgId msgSource)).correlationId
      = some msgId ∧
    (CommandHandler.mk n hs).processMessage (.plain msgId msgSource)
      = (CommandHandler.mk n []).processMessage (.plain msgId msgSource) :=
  ⟨rfl, rfl, rfl, rfl⟩

end CommandMessages

namespace PubSub

/-- `handle_message` never changes which subscriber it is: the returned
subscriber keeps its name. -/
theorem handleMessage_name (s : AgentSubscriber) (m : Message) :
    ((s.handleMessage m).1).name = s.name := by
  cases hsub : s.isSubscribedTo m.topic with
  | false => simp [AgentSubscriber.handleMessage, hsub]
  | true =>
      simp only [AgentSubscriber.handleMessage, hsub]
      cases s.agentRun m <;> simp

/-- `handle_message` never changes the subscriber's topic set. -/
theorem handleMessage_topics (s : AgentSubscriber) (m : Message) :
    ((s.handleMessage m).1).subscribedTopics = s.subscribedTopics := by
  cases hsub : s.isSubscribedTo m.topic with
  | false => simp [AgentSubscriber.handleMessage, hsub]
  | true =>
      simp only [AgentSubscriber.handleMessage, hsub]
      cases s.agentRun m <;> simp

/-- The instrumented invocation flag of `handle_message` equals the
subscription test. -/
theorem handleMessage_invoked (s : AgentSubscriber) (m : Message) :
    (s.handleMessage m).2.2 = s.isSubscribedTo m.topic := by
  cases hsub : s.isSubscribedTo m.topic with
  | false => simp [AgentSubscriber.handleMessage, hsub]
  | true =>
      simp only [AgentSubscriber.handleMessage, hsub]
      cases s.agentRun m <;> simp

/-- C7: `handle_message` invokes the bound handler iff the subscriber is
subscribed to the message's topic; when not subscribed it returns a skipped
result, unchanged state and no invocation; and the broker's consume step
invokes `handle_message` on exactly the registered subscribers whose topic
set contains the message's topic — every produced entry comes from an
invoked, subscribed subscriber, and the invoked subscribers are precisely
the subscribed ones in registration order. -/
theorem c7_topic_fanout :
    (∀ (s : AgentSubscriber) (m : Message),
      (s.handleMessage m).2.2 = s.isSubscribedTo m.topic) ∧
    (∀ (s : AgentSubscriber) (m : Message),
      s.isSubscribedTo m.topic = false →
      s.handleMessage m = (s, HandleResult.skipped "not_subscribed", false)) ∧
    (∀ (b : PubSubBroker) (m : Message) (x : AgentSubscriber × HandleResult × Bool),
      x ∈ b.processEvent m →
      x.2.2 = true ∧ x.1.isSubscribedTo m.topic = true) ∧
    (∀ (b : PubSubBroker) (m : Message),
      (b.processEvent m).map (fun x => x.1.name)
        = (b.subscribers.filter (fun s => s.isSubscribedTo m.topic)).map
            (fun s => s.name)) := by
  refine ⟨handleMessage_invoked, fun s m hsub => ?_, fun b m x hx => ?_, fun b m => ?_⟩
  · simp [AgentSubscriber.handleMessage, hsub]
  · simp only [PubSubBroker.processEvent, List.mem_map] at hx
    obtain ⟨a, ha, rfl⟩ := hx
    rw [List.mem_filter] at ha
    refine ⟨?_, ?_⟩
    · rw [handleMessage_invoked]; exact ha.2
    · simpa [AgentSubscriber.isSubscribedTo, handleMessage_topics] using ha.2
  · simp only [PubSubBroker.processEvent, List.map_map]
    exact List.map_congr_left (fun a _ => handleMessage_name a m)

/-- Witness for C7: subscriber X on order events, subscriber Y on customer
events, an order-events message — Y is answered skipped without invocation
and X's delivery in the consume step is an invocation of a subscribed
subscriber. -/
theorem c7_topic_fanout_witness :
    (AgentSubscriber.mk "Y" [TopicType.customerEvents]
        (fun _ => AgentOutcome.completed "ok") 0).handleMessage
        (Message.mk TopicType.orderEvents [] "msg1" "t0")
      = (AgentSubscriber.mk "Y" [TopicType.customerEvents]
          (fun _ => AgentOutcome.completed "ok") 0,
         HandleResult.skipped "not_subscribed", false) ∧
    ((AgentSubscriber.mk "X" [TopicType.orderEvents]
        (fun _ => AgentOutcome.completed "ok") 0).handleMessage
        (Message.mk TopicType.orderEvents [] "msg1" "t0")).2.2 = true :=
  ⟨c7_topic_fanout.2.1
      (AgentSubscriber.mk "Y" [TopicType.customerEvents]
        (fun _ => AgentOutcome.completed "ok") 0)
      (Message.mk TopicType.orderEvents [] "msg1" "t0") rfl,
   (c7_topic_fanout.2.2.1
      (PubSubBroker.mk
        [AgentSubscriber.mk "X" [TopicType.orderEvents]
          (fun _ => AgentOutcome.completed "ok") 0,
         AgentSubscriber.mk "Y" [TopicType.customerEvents]
          (fun _ => AgentOutcome.completed "ok") 0])
      (Message.mk TopicType.orderEvents [] "msg1" "t0")
      ((AgentSubscriber.mk "X" [TopicType.orderEvents]
          (fun _ => AgentOutcome.completed "ok") 0).handleMessage
        (Message.mk TopicType.orderEvents [] "msg1" "t0"))
      (by
        show (AgentSubscriber.mk "X" [TopicType.orderEvents]
            (fun _ => AgentOutcome.completed "ok") 0).handleMessage
            (Message.mk TopicType.orderEvents [] "msg1" "t0") ∈
          [(AgentSubscriber.mk "X" [TopicType.orderEvents]
              (fun _ => AgentOutcome.completed "ok") 0).handleMessage
            (Message.mk TopicType.orderEvents [] "msg1" "t0")]
        exact List.mem_singleton.mpr rfl)).1⟩

end PubSub
